import Mathlib

/-!
Single-button music player (main.c).

A shallow embedding of the playback engine of main.c: the melody tables, the
tone driver (stop_tone, play_tone) acting on the LEDC PWM registers, the player
(start_song, stop_song, update_song) acting on the four global variables, and
one iteration of the loop of app_main.

Conventions of the embedding.

* C `int` values are `Int`; `uint32_t` values are `Nat` kept below `2^32`, every
  unsigned operation being reduced modulo `2^32` explicitly.
* An array read is `Option`-valued: an index outside the table gives `none`,
  and a function performing such a read returns `none`.
* For the invariants, update_song is also given as a total function,
  update_song_word, in which a read outside a table yields a word supplied as
  an input; it agrees with update_song wherever that has a result.
* The platform services are inputs: the value of
  `xTaskGetTickCount() * portTICK_PERIOD_MS`, the word returned by
  `esp_random()` and the level returned by `gpio_get_level` are arguments.
* The LEDC driver is a register file recording the arguments of the last
  calls of `ledc_set_freq`, `ledc_set_duty` and `ledc_update_duty`.
* Every call of start_song, stop_song and every call of play_tone or stop_tone
  issued by the player is appended to a ghost log `calls`.
-/

namespace MusicPlayer

/-! ## Melody tables -/

/-- Table melody1 of main.c: the Happy Birthday pitches in hertz. -/
def melody1 : List Int := [
    264, 264, 297, 264, 352, 330,
    264, 264, 297, 264, 396, 352,
    264, 264, 528, 440, 352, 330, 297,
    466, 466, 440, 352, 396, 352
]

/-- Table durations1 of main.c: note durations in milliseconds. -/
def durations1 : List Int := [
    250, 250, 500, 500, 500, 1000,
    250, 250, 500, 500, 500, 1000,
    250, 250, 500, 500, 500, 500, 1000,
    250, 250, 500, 500, 500, 1000
]

/-- Table melody2 of main.c: pitches of the second song in hertz. -/
def melody2 : List Int := [
    261, 293, 293, 261, 246, 164, 220, 246,
    246, 220, 195, 195, 184, 195, 195, 195,
    184, 184, 184, 195, 220, 261, 293, 293,
    261, 246, 164, 220, 246, 246, 220, 195,
    195, 184, 195, 195, 195, 184, 184, 184,
    195, 220, 220, 246, 293, 369, 369, 329,
    329, 329, 329, 329, 293, 329, 293, 246,
    220, 293, 246, 220, 195, 184, 164, 261,
    293, 293, 261, 246, 164, 220, 246, 246,
    220, 195, 195, 184, 195, 195, 195, 184,
    184, 184, 195, 220, 261, 293, 293, 261,
    246, 164, 220, 246, 246, 220, 195, 195,
    184, 195, 195, 195, 184, 184, 184, 195,
    220, 220, 246, 293, 369, 369, 329, 329,
    329, 329, 329, 293, 329, 293, 246, 220,
    293, 246, 220, 195, 184, 164, 164, 246,
    246, 246, 220, 195, 164, 329, 329, 329,
    329, 329, 293, 261, 246, 293, 293, 293,
    293, 293, 261, 246, 220, 220, 220, 220,
    220, 220, 220, 293, 246, 246, 246, 246,
    246, 220, 220, 195, 164, 164, 329, 329,
    329, 329, 329, 293, 261, 246, 293, 293,
    293, 293, 293, 261, 246, 220, 220, 220,
    220, 220, 195, 184, 195, 164, 261, 293,
    293, 261, 246, 164, 220, 246, 246, 220,
    195, 195, 184, 195, 195, 195, 184, 184,
    184, 195, 220, 261, 293, 293, 261, 246,
    164, 220, 246, 246, 220, 195, 195, 184,
    195, 195, 195, 184, 184, 184, 195, 220,
    220, 246, 293, 369, 369, 329, 329, 329,
    329, 329, 293, 329, 293, 246, 220, 293,
    246, 220, 195, 184, 164
]

/-- Table durations2 of main.c: durations of the second song in milliseconds. -/
def durations2 : List Int := [
    166, 361, 542, 361, 361, 361, 166, 361,
    535, 361, 361, 361, 166, 339, 512, 339,
    339, 339, 339, 346, 685, 166, 361, 542,
    361, 361, 361, 166, 361, 535, 361, 361,
    361, 166, 339, 512, 339, 339, 361, 339,
    361, 670, 339, 1024, 361, 361, 361, 693,
    166, 361, 700, 361, 723, 339, 361, 166,
    813, 1047, 1084, 339, 339, 700, 685, 166,
    361, 542, 361, 361, 361, 166, 361, 535,
    361, 361, 361, 166, 339, 512, 339, 339,
    339, 339, 346, 685, 166, 361, 542, 361,
    361, 361, 166, 361, 535, 361, 361, 361,
    166, 339, 512, 339, 339, 361, 339, 361,
    670, 339, 1024, 361, 361, 361, 693, 166,
    361, 700, 361, 723, 339, 361, 166, 813,
    1047, 1084, 339, 339, 700, 685, 723, 331,
    723, 331, 723, 331, 361, 331, 685, 339,
    723, 331, 339, 723, 685, 331, 685, 361,
    723, 331, 339, 723, 670, 339, 685, 339,
    678, 361, 723, 331, 685, 361, 670, 339,
    723, 331, 723, 339, 181, 361, 331, 685,
    339, 723, 331, 339, 723, 685, 331, 685,
    361, 723, 331, 339, 723, 670, 339, 685,
    339, 339, 346, 670, 1024, 1024, 166, 361,
    542, 361, 361, 361, 166, 361, 535, 361,
    361, 361, 166, 339, 512, 339, 339, 339,
    339, 346, 685, 166, 361, 542, 361, 361,
    361, 166, 361, 535, 361, 361, 361, 166,
    339, 512, 339, 339, 361, 339, 361, 670,
    339, 1024, 361, 361, 361, 693, 166, 361,
    700, 361, 723, 339, 361, 166, 813, 1047,
    1084, 339, 339, 700, 685
]

/-- Constant MELODY1_LENGTH: sizeof(melody1) / sizeof(melody1[0]). -/
def MELODY1_LENGTH : Nat := melody1.length

/-- Constant MELODY2_LENGTH: sizeof(melody2) / sizeof(melody2[0]). -/
def MELODY2_LENGTH : Nat := melody2.length

/-- Number of values of a uint32_t. -/
def U32 : Nat := 4294967296

/-- Array read `table[i]` with a C int index: `none` outside the table. -/
def read (table : List Int) (i : Int) : Option Int :=
  if i < 0 then none else table[i.toNat]?

/-! ## Tone driver -/

/-- Registers of the LEDC timer 0 and channel 0 that the program writes. -/
structure Ledc where
  /-- Field duty_resolution of the timer configuration, in bits. -/
  duty_resolution : Nat
  /-- Frequency of timer 0, as last passed to the driver. -/
  freq_hz : Int
  /-- Duty of channel 0 as last written by ledc_set_duty. -/
  duty : Nat
  /-- Duty of channel 0 as last committed by ledc_update_duty (or at channel configuration). -/
  hw_duty : Nat
deriving DecidableEq, Repr

/-- Driver call ledc_set_freq on timer 0. -/
def ledc_set_freq (freq : Int) (h : Ledc) : Ledc := { h with freq_hz := freq }

/-- Driver call ledc_set_duty on channel 0. -/
def ledc_set_duty (duty : Nat) (h : Ledc) : Ledc := { h with duty := duty }

/-- Driver call ledc_update_duty on channel 0: commits the written duty. -/
def ledc_update_duty (h : Ledc) : Ledc := { h with hw_duty := h.duty }

/-- The buzzer part of setup_hardware: timer 0 with 13 bit resolution at 440 Hz,
channel 0 with duty 0. -/
def setup_hardware : Ledc :=
  { duty_resolution := 13, freq_hz := 440, duty := 0, hw_duty := 0 }

/-- Function stop_tone of main.c. -/
def stop_tone (h : Ledc) : Ledc :=
  ledc_update_duty (ledc_set_duty 0 h)

/-- Function play_tone of main.c. -/
def play_tone (freq : Int) (h : Ledc) : Ledc :=
  if freq = 0 then
    stop_tone h
  else
    ledc_update_duty (ledc_set_duty 2048 (ledc_set_freq freq h))

/-! ## Player -/

/-- Entry of the ghost log. -/
inductive Call where
  | start_song
  | stop_song
  | play_tone (freq : Int)
  | stop_tone
deriving DecidableEq, Repr

/-- The global variables of main.c, the buzzer registers and the ghost log. -/
structure Player where
  playing : Bool
  note_index : Int
  last_note_time : Nat
  current_song : Int
  ledc : Ledc
  calls : List Call
deriving DecidableEq, Repr

/-- State at the entry of the loop of app_main: the initialisers of the globals and
the registers left by setup_hardware. -/
def boot : Player :=
  { playing := false, note_index := 0, last_note_time := 0, current_song := 0,
    ledc := setup_hardware, calls := [] }

/-- Function start_song of main.c; `random` is the word returned by esp_random and
`tick` the value of xTaskGetTickCount() * portTICK_PERIOD_MS. -/
def start_song (random tick : Nat) (p : Player) : Player :=
  { p with
    current_song := ((random % U32 % 2 : Nat) : Int)
    playing := true
    note_index := 0
    last_note_time := tick % U32
    calls := p.calls ++ [Call.start_song] }

/-- Function stop_song of main.c. -/
def stop_song (p : Player) : Player :=
  { p with
    playing := false
    ledc := stop_tone p.ledc
    calls := p.calls ++ [Call.stop_song, Call.stop_tone] }

/-- The test `now - last_note_time >= d` of update_song: the left side is a uint32_t
difference and the int `d` is converted to uint32_t for the comparison. -/
def note_elapsed (now last : Nat) (d : Int) : Bool :=
  decide ((d % (U32 : Int)).toNat ≤ (now % U32 + U32 - last % U32) % U32)

/-- Pointer current_melody of update_song. -/
def current_melody (p : Player) : List Int :=
  if p.current_song = 0 then melody1 else melody2

/-- Pointer current_durations of update_song. -/
def current_durations (p : Player) : List Int :=
  if p.current_song = 0 then durations1 else durations2

/-- Local melody_length of update_song. -/
def melody_length (p : Player) : Int :=
  if p.current_song = 0 then (MELODY1_LENGTH : Int) else (MELODY2_LENGTH : Int)

/-- Function update_song of main.c; `tick` is the value of
xTaskGetTickCount() * portTICK_PERIOD_MS. The duration is read before
note_index is compared with melody_length, as in the source. -/
def update_song (tick : Nat) (p : Player) : Option Player :=
  if p.playing = false then some p
  else
    let now := tick % U32
    match read (current_durations p) p.note_index with
    | none => none
    | some d =>
      if note_elapsed now p.last_note_time d then
        if p.note_index < melody_length p then
          match read (current_melody p) p.note_index with
          | none => none
          | some freq =>
            some { p with
              ledc := play_tone freq p.ledc
              calls := p.calls ++ [Call.play_tone freq]
              note_index := p.note_index + 1
              last_note_time := now }
        else
          some { p with
            ledc := stop_tone p.ledc
            calls := p.calls ++ [Call.stop_tone]
            playing := false }
      else some p

/-! ## Main loop -/

/-- Local state of app_main together with the player. -/
structure Loop where
  last_button : Bool
  player : Player
deriving DecidableEq, Repr

/-- What one iteration of the loop reads from the platform. -/
structure Inputs where
  /-- Level returned by gpio_get_level(BUTTON_PIN). -/
  button : Bool
  /-- Word returned by esp_random, consumed only when start_song runs. -/
  random : Nat
  /-- Clock value read by start_song, consumed only when start_song runs. -/
  tick_start : Nat
  /-- Clock value read by update_song. -/
  tick_update : Nat
deriving DecidableEq, Repr

/-- State of app_main when the loop is entered. -/
def app_main_init : Loop := { last_button := true, player := boot }

/-- The button part of the loop body: the sample, the falling edge test, the toggle
and the assignment to last_button. -/
def check_button (i : Inputs) (l : Loop) : Loop :=
  let player :=
    if l.last_button && !i.button then
      if l.player.playing then stop_song l.player
      else start_song i.random i.tick_start l.player
    else l.player
  { last_button := i.button, player := player }

/-- One iteration of the loop of app_main: the button part, then update_song. -/
def loop_iteration (i : Inputs) (l : Loop) : Option Loop :=
  let l1 := check_button i l
  match update_song i.tick_update l1.player with
  | none => none
  | some p => some { l1 with player := p }

/-- Consecutive iterations of the loop, one per element of the input list. -/
def run_loop : List Inputs → Loop → Option Loop
  | [], l => some l
  | i :: rest, l =>
    match loop_iteration i l with
    | none => none
    | some l1 => run_loop rest l1

/-- Consecutive calls of update_song, one per clock value. -/
def run_updates : List Nat → Player → Option Player
  | [], p => some p
  | t :: rest, p =>
    match update_song t p with
    | none => none
    | some p1 => run_updates rest p1

/-! ## Reachable states and scenarios -/

/-- States of the loop of app_main reachable from its entry by completed iterations,
the inputs of every iteration being arbitrary. -/
inductive Reachable : Loop → Prop
  | init : Reachable app_main_init
  | step (i : Inputs) (l l1 : Loop) :
      Reachable l → loop_iteration i l = some l1 → Reachable l1

/-- Player states reachable from boot by calls of start_song, stop_song and update_song
in any order, with arbitrary random words and clock values. -/
inductive PlayerReachable : Player → Prop
  | boot : PlayerReachable boot
  | start_song (random tick : Nat) (p : Player) :
      PlayerReachable p → PlayerReachable (start_song random tick p)
  | stop_song (p : Player) : PlayerReachable p → PlayerReachable (stop_song p)
  | update_song (tick : Nat) (p p1 : Player) :
      PlayerReachable p → update_song tick p = some p1 → PlayerReachable p1

/-- Inputs of consecutive iterations without a press: no sample is low right after a
high one (`prev` being the sample before the first), and the clock read by update_song
is `period` later in each iteration than in the one before (`t` being the clock before
the first). -/
def quiet_inputs (period : Nat) : Bool → Nat → List Inputs → Bool
  | _, _, [] => true
  | prev, t, i :: rest =>
    !(prev && !i.button) && decide (i.tick_update = t + period) &&
      quiet_inputs period i.button (t + period) rest

/-- Inputs of the iteration that observes a press at clock `t` with random word `random`. -/
def press_input (random t : Nat) : Inputs :=
  { button := false, random := random, tick_start := t, tick_update := t }

/-- Inputs of `n` iterations 50 ms apart after clock `t` with the button released. -/
def released_inputs : Nat → Nat → List Inputs
  | _, 0 => []
  | t, n + 1 =>
    { button := true, random := 0, tick_start := t + 50, tick_update := t + 50 } ::
      released_inputs (t + 50) n

/-- Scenario S2: a press at clock 1000 with a random word selecting song 0, followed by
250 iterations 50 ms apart without a press, the last one at clock 1000 + 12500, where
12500 is the sum of durations1. -/
def s2_inputs : List Inputs := press_input 0 1000 :: released_inputs 1000 250

/-- Clock values of `n` consecutive update_song calls `period` apart after clock `t`. -/
def ticks_every (period : Nat) : Nat → Nat → List Nat
  | _, 0 => []
  | t, n + 1 => (t + period) :: ticks_every period (t + period) n

/-- Invariant of a play in progress whose start_song left the ghost log `base`: the
player is playing, note_index is within 0 and the melody length, the calls issued since
are play_tone of the first note_index pitches of the melody in table order, and once a
pitch has been issued the registers are those left by play_tone of the last one. -/
def Played (base : List Call) (p : Player) : Prop :=
  p.playing = true ∧ 0 ≤ p.note_index ∧ p.note_index ≤ melody_length p ∧
  p.calls = base ++ ((current_melody p).take p.note_index.toNat).map Call.play_tone ∧
  (0 < p.note_index →
    ∃ freq h, read (current_melody p) (p.note_index - 1) = some freq ∧
      p.ledc = play_tone freq h)

/-- Player `q` is player `c` with the clock origin moved by `t0`: same playing flag,
note_index and song, and last_note_time later by `t0` modulo 2^32. -/
def Shifted (t0 : Nat) (c q : Player) : Prop :=
  q.playing = c.playing ∧ q.note_index = c.note_index ∧
  q.current_song = c.current_song ∧
  q.last_note_time = (t0 + c.last_note_time) % U32

/-- States after each of consecutive iterations of the loop, in order. -/
def loop_states : List Inputs → Loop → Option (List Loop)
  | [], _ => some []
  | i :: rest, l =>
    match loop_iteration i l with
    | none => none
    | some l1 =>
      match loop_states rest l1 with
      | none => none
      | some ls => some (l1 :: ls)

/-- States after each of consecutive calls of update_song, in order. -/
def update_states : List Nat → Player → Option (List Player)
  | [], _ => some []
  | t :: rest, p =>
    match update_song t p with
    | none => none
    | some p1 =>
      match update_states rest p1 with
      | none => none
      | some ps => some (p1 :: ps)

/-- Number of entries j of a duration table whose cumulative duration, the sum of the
entries 0 to j, is at most `elapsed`. -/
def notes_issued (durations : List Int) (elapsed : Nat) : Nat :=
  ((List.range durations.length).filter
    (fun j => decide ((durations.take (j + 1)).sum ≤ (elapsed : Int)))).length

/-- Index at which a call of update_song reads current_durations: the read is made
exactly when playing is true, at note_index, before note_index is compared with
melody_length. -/
def duration_read_index (p : Player) : Option Int :=
  if p.playing = false then none else some p.note_index

/-! ## The player with the out-of-table word as an input -/

/-- Array read `table[i]` as the processor performs it: inside the table the stored
entry, outside the table `word`, the content of the memory found at that address. -/
def read_word (word : Int) (table : List Int) (i : Int) : Int :=
  match read table i with
  | some v => v
  | none => word

/-- Function update_song of main.c as a total function: `word` is what the memory holds
where a table is read outside its bounds, and `tick` is the value of
xTaskGetTickCount() * portTICK_PERIOD_MS. The duration is read before note_index is
compared with melody_length, as in the source. -/
def update_song_word (word : Int) (tick : Nat) (p : Player) : Player :=
  if p.playing = false then p
  else
    let now := tick % U32
    if note_elapsed now p.last_note_time
        (read_word word (current_durations p) p.note_index) then
      if p.note_index < melody_length p then
        { p with
          ledc := play_tone (read_word word (current_melody p) p.note_index) p.ledc
          calls := p.calls ++
            [Call.play_tone (read_word word (current_melody p) p.note_index)]
          note_index := p.note_index + 1
          last_note_time := now }
      else
        { p with
          ledc := stop_tone p.ledc
          calls := p.calls ++ [Call.stop_tone]
          playing := false }
    else p

/-- One iteration of the loop of app_main as a total function: the button part, then
update_song with the out-of-table word `word`. -/
def loop_iteration_word (word : Int) (i : Inputs) (l : Loop) : Loop :=
  { last_button := (check_button i l).last_button,
    player := update_song_word word i.tick_update (check_button i l).player }

/-- Consecutive iterations of the loop, each with its out-of-table word and inputs. -/
def run_loop_word : List (Int × Inputs) → Loop → Loop
  | [], l => l
  | (word, i) :: rest, l => run_loop_word rest (loop_iteration_word word i l)

/-- Consecutive calls of update_song, each with its out-of-table word and clock value. -/
def run_updates_word : List (Int × Nat) → Player → Player
  | [], p => p
  | (word, t) :: rest, p => run_updates_word rest (update_song_word word t p)

/-- States of the loop of app_main reachable from its entry by iterations with arbitrary
inputs, whatever the memory holds where a table is read outside its bounds. -/
inductive ReachableWord : Loop → Prop
  | init : ReachableWord app_main_init
  | step (word : Int) (i : Inputs) (l : Loop) :
      ReachableWord l → ReachableWord (loop_iteration_word word i l)

/-- Player states reachable from boot by calls of start_song, stop_song and update_song
in any order, with arbitrary random words and clock values, whatever the memory holds
where a table is read outside its bounds. -/
inductive PlayerReachableWord : Player → Prop
  | boot : PlayerReachableWord boot
  | start_song (random tick : Nat) (p : Player) :
      PlayerReachableWord p → PlayerReachableWord (start_song random tick p)
  | stop_song (p : Player) : PlayerReachableWord p → PlayerReachableWord (stop_song p)
  | update_song (word : Int) (tick : Nat) (p : Player) :
      PlayerReachableWord p → PlayerReachableWord (update_song_word word tick p)

/-- Scenario S2 followed by one more iteration 50 ms later with the button released, the
memory past the tables holding `word` throughout. -/
def s2_then_one (word : Int) : List (Int × Inputs) :=
  (s2_inputs ++ released_inputs 13500 1).map (fun i => (word, i))

/-- State of the player when song 0 has issued its 25 pitches, the last one at clock
12500 after a start at clock 0 on the boot state. -/
def song0_played : Player :=
  { playing := true, note_index := 25, last_note_time := 12500, current_song := 0,
    ledc := play_tone 352 setup_hardware,
    calls := Call.start_song :: melody1.map Call.play_tone }
/-! ## Auxiliary facts -/

set_option maxRecDepth 100000

theorem melody1_length : melody1.length = 25 := by decide
theorem durations1_length : durations1.length = 25 := by decide
theorem melody2_length : melody2.length = 253 := by decide
theorem durations2_length : durations2.length = 253 := by decide

theorem read_some (table : List Int) (i : Int) (h0 : 0 ≤ i) (h1 : i < table.length) :
    ∃ v, read table i = some v ∧ table[i.toNat]? = some v := by
  have h2 : i.toNat < table.length := by omega
  refine ⟨table[i.toNat], ?_, ?_⟩
  · unfold read
    rw [if_neg (by omega)]
    exact List.getElem?_eq_getElem h2
  · exact List.getElem?_eq_getElem h2

theorem read_none (table : List Int) (i : Int) (h1 : (table.length : Int) ≤ i) :
    read table i = none := by
  unfold read
  split
  · rfl
  · exact List.getElem?_eq_none (by omega)

theorem durations_length (p : Player) : ((current_durations p).length : Int) = melody_length p := by
  unfold current_durations melody_length MELODY1_LENGTH MELODY2_LENGTH
  split <;> simp [melody1_length, melody2_length, durations1_length, durations2_length]

theorem melody_length_eq (p : Player) : ((current_melody p).length : Int) = melody_length p := by
  unfold current_melody melody_length MELODY1_LENGTH MELODY2_LENGTH
  split <;> rfl

theorem update_song_idle (t : Nat) (p : Player) (h : p.playing = false) :
    update_song t p = some p := by
  unfold update_song
  rw [if_pos h]

theorem update_song_finished (t : Nat) (p : Player) (h : p.playing = true)
    (hN : melody_length p ≤ p.note_index) : update_song t p = none := by
  unfold update_song
  rw [if_neg (by simp [h]), read_none _ _ (by rw [durations_length]; exact hN)]

theorem update_song_playing (t : Nat) (p : Player) (h : p.playing = true)
    (h0 : 0 ≤ p.note_index) (hN : p.note_index < melody_length p) :
    ∃ d freq, read (current_durations p) p.note_index = some d ∧
      read (current_melody p) p.note_index = some freq ∧
      update_song t p =
        if note_elapsed (t % U32) p.last_note_time d then
          some { p with
            ledc := play_tone freq p.ledc
            calls := p.calls ++ [Call.play_tone freq]
            note_index := p.note_index + 1
            last_note_time := t % U32 }
        else some p := by
  obtain ⟨d, hd, -⟩ := read_some (current_durations p) p.note_index h0
    (by rw [durations_length]; exact hN)
  obtain ⟨f, hf, -⟩ := read_some (current_melody p) p.note_index h0
    (by rw [melody_length_eq]; exact hN)
  refine ⟨d, f, hd, hf, ?_⟩
  unfold update_song
  rw [if_neg (by simp [h])]
  simp only [hd, hf, if_pos hN]

theorem update_song_some_range (t : Nat) (p p1 : Player) (h : p.playing = true)
    (hu : update_song t p = some p1) :
    0 ≤ p.note_index ∧ p.note_index < melody_length p := by
  by_contra hc
  have hnone : read (current_durations p) p.note_index = none := by
    by_cases h0 : 0 ≤ p.note_index
    · exact read_none _ _ (by rw [durations_length]; omega)
    · unfold read
      rw [if_pos (by omega)]
  unfold update_song at hu
  rw [if_neg (by simp [h]), hnone] at hu
  cases hu


theorem durations_range (d : Int) (h : d ∈ durations1 ∨ d ∈ durations2) :
    0 < d ∧ d < 2000 := by
  have h1 : ∀ x ∈ durations1, 0 < x ∧ x < 2000 := by decide
  have h2 : ∀ x ∈ durations2, 0 < x ∧ x < 2000 := by decide
  rcases h with h | h
  · exact h1 d h
  · exact h2 d h

theorem read_mem (table : List Int) (i d : Int) (h : read table i = some d) : d ∈ table := by
  unfold read at h
  split at h
  · exact absurd h (by simp)
  · exact List.getElem?_mem h

theorem current_durations_mem (p : Player) (d : Int) (h : d ∈ current_durations p) :
    d ∈ durations1 ∨ d ∈ durations2 := by
  unfold current_durations at h
  split at h
  · exact Or.inl h
  · exact Or.inr h

theorem note_elapsed_iff (last e : Nat) (d : Int) (hl : last < U32) (he : e < U32)
    (hd : 0 ≤ d ∧ d < 2000) :
    note_elapsed ((last + e) % U32) last d = true ↔ d ≤ (e : Int) := by
  unfold note_elapsed
  rw [decide_eq_true_iff]
  unfold U32 at *
  have h1 : ((last + e) % 4294967296 % 4294967296 + 4294967296 - last % 4294967296)
      % 4294967296 = e := by omega
  have h2 : ((d % ((4294967296 : Nat) : Int)).toNat : Int) = d := by
    rw [Int.toNat_of_nonneg (by omega)]
    omega
  rw [h1]
  omega


/-! ## Invariant of a play in progress -/

theorem played_start (random tick : Nat) (p : Player) :
    Played (p.calls ++ [Call.start_song]) (start_song random tick p) := by
  refine ⟨rfl, le_refl _, ?_, ?_, ?_⟩
  · show (0 : Int) ≤ _
    unfold melody_length
    split <;> exact Int.ofNat_nonneg _
  · show p.calls ++ [Call.start_song] = _
    simp [start_song]
  · intro h
    exact absurd h (lt_irrefl _)

theorem played_update (base : List Call) (t : Nat) (p p1 : Player)
    (hp : Played base p) (hu : update_song t p = some p1) :
    Played base p1 ∧ p1.current_song = p.current_song := by
  obtain ⟨hplay, h0, hN, hcalls, hledc⟩ := hp
  rcases lt_or_eq_of_le hN with hlt | heq
  · obtain ⟨d, freq, hd, hf, hstep⟩ := update_song_playing t p hplay h0 hlt
    rw [hstep] at hu
    split at hu
    · cases hu
      refine ⟨⟨hplay, by show 0 ≤ p.note_index + 1; omega,
        by show p.note_index + 1 ≤ melody_length p; omega, ?_, ?_⟩, rfl⟩
      · show p.calls ++ [Call.play_tone freq] =
          base ++ ((current_melody p).take (p.note_index + 1).toNat).map Call.play_tone
        have hidx : (p.note_index + 1).toNat = p.note_index.toNat + 1 := by omega
        obtain ⟨v, hv, hget⟩ := read_some (current_melody p) p.note_index h0
          (by rw [melody_length_eq]; exact hlt)
        rw [hf] at hv
        cases hv
        rw [hidx, List.take_succ, hget, hcalls]
        simp
      · intro _
        refine ⟨freq, p.ledc, ?_, rfl⟩
        show read (current_melody p) (p.note_index + 1 - 1) = some freq
        rw [add_sub_cancel_right]
        exact hf
    · cases hu
      exact ⟨⟨hplay, h0, hN, hcalls, hledc⟩, rfl⟩
  · rw [update_song_finished t p hplay (le_of_eq heq.symm)] at hu
    cases hu

theorem played_run (base : List Call) (ticks : List Nat) :
    ∀ p p1 : Player, Played base p → run_updates ticks p = some p1 →
      Played base p1 ∧ p1.current_song = p.current_song := by
  induction ticks with
  | nil =>
    intro p p1 hp hr
    cases hr
    exact ⟨hp, rfl⟩
  | cons t rest ih =>
    intro p p1 hp hr
    unfold run_updates at hr
    cases hu : update_song t p with
    | none => rw [hu] at hr; cases hr
    | some p2 =>
      rw [hu] at hr
      obtain ⟨hp2, hs2⟩ := played_update base t p p2 hp hu
      obtain ⟨hp1, hs1⟩ := ih p2 p1 hp2 hr
      exact ⟨hp1, hs1.trans hs2⟩


theorem advance_every_2000 :
    ∀ (k t : Nat) (p : Player), p.playing = true → 0 ≤ p.note_index →
      p.note_index + (k : Int) ≤ melody_length p → p.last_note_time = t % U32 →
      ∃ p1 : Player, run_updates (ticks_every 2000 t k) p = some p1 ∧
        p1.note_index = p.note_index + (k : Int) ∧ p1.playing = true ∧
        p1.current_song = p.current_song := by
  intro k
  induction k with
  | zero =>
    intro t p hplay _ _ _
    exact ⟨p, rfl, by simp, hplay, rfl⟩
  | succ k ih =>
    intro t p hplay h0 hN hlast
    have hlt : p.note_index < melody_length p := by
      push_cast at hN
      omega
    obtain ⟨d, freq, hd, -, hstep⟩ := update_song_playing (t + 2000) p hplay h0 hlt
    have hr := durations_range d (current_durations_mem p d (read_mem _ _ _ hd))
    have he : note_elapsed ((t + 2000) % U32) p.last_note_time d = true := by
      have hk := (note_elapsed_iff (t % U32) 2000 d (Nat.mod_lt _ (by decide)) (by decide)
        ⟨le_of_lt hr.1, hr.2⟩).mpr (by have := hr.2; omega)
      rw [hlast]
      have hmod : (t % U32 + 2000) % U32 = (t + 2000) % U32 := by
        unfold U32
        omega
      rw [hmod] at hk
      exact hk
    rw [if_pos he] at hstep
    obtain ⟨p1, hrun, hidx, hp1, hsong⟩ := ih (t + 2000)
      { p with
        ledc := play_tone freq p.ledc
        calls := p.calls ++ [Call.play_tone freq]
        note_index := p.note_index + 1
        last_note_time := (t + 2000) % U32 }
      hplay (by show 0 ≤ p.note_index + 1; omega)
      (by
        show p.note_index + 1 + (k : Int) ≤ melody_length p
        push_cast at hN
        omega)
      rfl
    refine ⟨p1, ?_, ?_, hp1, hsong⟩
    · unfold ticks_every run_updates
      rw [hstep]
      exact hrun
    · rw [hidx]
      show p.note_index + 1 + (k : Int) = p.note_index + ((k + 1 : Nat) : Int)
      push_cast
      omega


/-! ## Outcomes of update_song -/

theorem update_song_last_button (i : Inputs) (l l1 : Loop) (h : loop_iteration i l = some l1) :
    l1.last_button = i.button ∧
    update_song i.tick_update (check_button i l).player = some l1.player := by
  unfold loop_iteration at h
  cases hu : update_song i.tick_update (check_button i l).player with
  | none => simp [hu] at h
  | some q =>
    simp only [hu] at h
    cases h
    exact ⟨rfl, rfl⟩

theorem silent_check_button (i : Inputs) (l : Loop)
    (hs : l.player.playing = false → l.player.ledc.duty = 0 ∧ l.player.ledc.hw_duty = 0) :
    (check_button i l).player.playing = false →
      (check_button i l).player.ledc.duty = 0 ∧ (check_button i l).player.ledc.hw_duty = 0 := by
  unfold check_button
  dsimp only
  split
  · split
    · intro _
      exact ⟨rfl, rfl⟩
    · intro hc
      cases hc
  · exact hs

theorem run_updates_idle (ticks : List Nat) (p : Player) (h : p.playing = false) :
    run_updates ticks p = some p := by
  induction ticks with
  | nil => rfl
  | cons t rest ih =>
    unfold run_updates
    rw [update_song_idle t p h]
    exact ih

theorem check_button_player (i : Inputs) (l : Loop) :
    (l.last_button = true → i.button = false → l.player.playing = true →
      (check_button i l).player = stop_song l.player) ∧
    (l.last_button = true → i.button = false → l.player.playing = false →
      (check_button i l).player = start_song i.random i.tick_start l.player) ∧
    (¬(l.last_button = true ∧ i.button = false) → (check_button i l).player = l.player) := by
  unfold check_button
  dsimp only
  refine ⟨?_, ?_, ?_⟩
  · intro h1 h2 h3
    simp [h1, h2, h3]
  · intro h1 h2 h3
    simp [h1, h2, h3]
  · intro h
    rw [if_neg]
    simpa using h

theorem loop_iteration_some (i : Inputs) (l : Loop) (q : Player)
    (hu : update_song i.tick_update (check_button i l).player = some q) :
    loop_iteration i l = some { last_button := i.button, player := q } := by
  unfold loop_iteration
  dsimp only
  rw [hu]
  rfl

theorem update_song_playing_some (t : Nat) (p : Player) (h : p.playing = true)
    (h0 : 0 ≤ p.note_index) (hN : p.note_index < melody_length p) :
    ∃ q : Player, update_song t p = some q ∧ q.playing = true := by
  obtain ⟨d, freq, -, -, hu⟩ := update_song_playing t p h h0 hN
  by_cases he : note_elapsed (t % U32) p.last_note_time d = true
  · rw [if_pos he] at hu
    exact ⟨_, hu, h⟩
  · rw [if_neg he] at hu
    exact ⟨_, hu, h⟩

theorem player_reachable_run (ticks : List Nat) :
    ∀ p p1 : Player, PlayerReachable p → run_updates ticks p = some p1 →
      PlayerReachable p1 := by
  induction ticks with
  | nil =>
    intro p p1 hp hr
    cases hr
    exact hp
  | cons t rest ih =>
    intro p p1 hp hr
    unfold run_updates at hr
    cases hu : update_song t p with
    | none =>
      rw [hu] at hr
      cases hr
    | some p2 =>
      rw [hu] at hr
      exact ih p2 p1 (PlayerReachable.update_song t p p2 hp hu) hr


/-! ## The player with the out-of-table word as an input -/

theorem read_word_of_read (word : Int) (table : List Int) (i v : Int)
    (h : read table i = some v) : read_word word table i = v := by
  unfold read_word
  rw [h]

theorem update_song_word_idle (word : Int) (t : Nat) (p : Player) (h : p.playing = false) :
    update_song_word word t p = p := by
  unfold update_song_word
  rw [if_pos h]

theorem update_song_word_cases (word : Int) (t : Nat) (p : Player) :
    update_song_word word t p = p ∨
    (p.playing = true ∧ p.note_index < melody_length p ∧ ∃ freq : Int,
      update_song_word word t p = { p with
        ledc := play_tone freq p.ledc
        calls := p.calls ++ [Call.play_tone freq]
        note_index := p.note_index + 1
        last_note_time := t % U32 }) ∨
    (p.playing = true ∧ melody_length p ≤ p.note_index ∧
      note_elapsed (t % U32) p.last_note_time
        (read_word word (current_durations p) p.note_index) = true ∧
      update_song_word word t p = { p with
        ledc := stop_tone p.ledc
        calls := p.calls ++ [Call.stop_tone]
        playing := false }) := by
  unfold update_song_word
  by_cases hplay : p.playing = false
  · rw [if_pos hplay]
    exact Or.inl rfl
  · rw [if_neg hplay]
    have hplay1 : p.playing = true := by simpa using hplay
    dsimp only
    by_cases he : note_elapsed (t % U32) p.last_note_time
        (read_word word (current_durations p) p.note_index) = true
    · rw [if_pos he]
      by_cases hlt : p.note_index < melody_length p
      · rw [if_pos hlt]
        exact Or.inr (Or.inl ⟨hplay1, hlt, _, rfl⟩)
      · rw [if_neg hlt]
        exact Or.inr (Or.inr ⟨hplay1, not_lt.mp hlt, he, rfl⟩)
    · rw [if_neg he]
      exact Or.inl rfl

theorem update_song_agrees (word : Int) (t : Nat) (p p1 : Player)
    (hu : update_song t p = some p1) : update_song_word word t p = p1 := by
  cases hplay : p.playing with
  | false =>
    rw [update_song_idle t p hplay] at hu
    cases hu
    exact update_song_word_idle word t p hplay
  | true =>
    obtain ⟨h0, hN⟩ := update_song_some_range t p p1 hplay hu
    obtain ⟨d, freq, hd, hf, hstep⟩ := update_song_playing t p hplay h0 hN
    rw [hstep] at hu
    unfold update_song_word
    rw [if_neg (by simp [hplay])]
    dsimp only
    rw [read_word_of_read word _ _ d hd, read_word_of_read word _ _ freq hf]
    by_cases he : note_elapsed (t % U32) p.last_note_time d = true
    · rw [if_pos he] at hu ⊢
      rw [if_pos hN]
      cases hu
      rfl
    · rw [if_neg he] at hu ⊢
      cases hu
      rfl

theorem loop_iteration_agrees (word : Int) (i : Inputs) (l l1 : Loop)
    (h : loop_iteration i l = some l1) : loop_iteration_word word i l = l1 := by
  obtain ⟨hb, hu⟩ := update_song_last_button i l l1 h
  unfold loop_iteration_word
  rw [update_song_agrees word _ _ _ hu]
  cases l1
  cases hb
  rfl

theorem reachable_word_of_reachable (l : Loop) (h : Reachable l) : ReachableWord l := by
  induction h with
  | init => exact ReachableWord.init
  | step i l0 l1 _ hstep ih =>
    rw [← loop_iteration_agrees 0 i l0 l1 hstep]
    exact ReachableWord.step 0 i l0 ih

theorem player_reachable_word_of_reachable (p : Player) (h : PlayerReachable p) :
    PlayerReachableWord p := by
  induction h with
  | boot => exact PlayerReachableWord.boot
  | start_song random tick q _ ih => exact PlayerReachableWord.start_song random tick q ih
  | stop_song q _ ih => exact PlayerReachableWord.stop_song q ih
  | update_song tick q q1 _ hu ih =>
    rw [← update_song_agrees 0 tick q q1 hu]
    exact PlayerReachableWord.update_song 0 tick q ih

theorem reachable_word_run (inputs : List (Int × Inputs)) :
    ∀ l : Loop, ReachableWord l → ReachableWord (run_loop_word inputs l) := by
  induction inputs with
  | nil =>
    intro l hl
    exact hl
  | cons x rest ih =>
    intro l hl
    obtain ⟨word, i⟩ := x
    exact ih _ (ReachableWord.step word i l hl)

theorem run_updates_word_idle (calls : List (Int × Nat)) (p : Player)
    (h : p.playing = false) : run_updates_word calls p = p := by
  induction calls with
  | nil => rfl
  | cons x rest ih =>
    obtain ⟨word, t⟩ := x
    unfold run_updates_word
    rw [update_song_word_idle word t p h]
    exact ih

theorem silent_update_word (word : Int) (t : Nat) (p : Player)
    (hs : p.playing = false → p.ledc.duty = 0 ∧ p.ledc.hw_duty = 0) :
    (update_song_word word t p).playing = false →
      (update_song_word word t p).ledc.duty = 0 ∧
      (update_song_word word t p).ledc.hw_duty = 0 := by
  rcases update_song_word_cases word t p with h | ⟨hplay, -, freq, h⟩ | ⟨-, -, -, h⟩
  · rw [h]
    exact hs
  · rw [h]
    intro hc
    rw [show ({ p with
        ledc := play_tone freq p.ledc
        calls := p.calls ++ [Call.play_tone freq]
        note_index := p.note_index + 1
        last_note_time := t % U32 } : Player).playing = p.playing from rfl, hplay] at hc
    cases hc
  · rw [h]
    intro _
    exact ⟨rfl, rfl⟩

theorem bounds_update_word (word : Int) (t : Nat) (p : Player)
    (hb : (p.current_song = 0 ∨ p.current_song = 1) ∧ 0 ≤ p.note_index ∧
      p.note_index ≤ melody_length p) :
    ((update_song_word word t p).current_song = 0 ∨
      (update_song_word word t p).current_song = 1) ∧
    0 ≤ (update_song_word word t p).note_index ∧
    (update_song_word word t p).note_index ≤ melody_length (update_song_word word t p) := by
  rcases update_song_word_cases word t p with h | ⟨-, hlt, freq, h⟩ | ⟨-, -, -, h⟩
  · rw [h]
    exact hb
  · rw [h]
    refine ⟨hb.1, ?_, ?_⟩
    · show 0 ≤ p.note_index + 1
      omega
    · show p.note_index + 1 ≤ melody_length p
      omega
  · rw [h]
    exact hb

theorem update_song_defined (word : Int) (t : Nat) (p : Player) :
    update_song t p =
      if p.playing = true ∧ ¬(0 ≤ p.note_index ∧ p.note_index < melody_length p) then none
      else some (update_song_word word t p) := by
  cases hu : update_song t p with
  | none =>
    by_cases hc : p.playing = true ∧ ¬(0 ≤ p.note_index ∧ p.note_index < melody_length p)
    · rw [if_pos hc]
    · exfalso
      cases hplay : p.playing with
      | false =>
        rw [update_song_idle t p hplay] at hu
        cases hu
      | true =>
        have hr : 0 ≤ p.note_index ∧ p.note_index < melody_length p := by
          by_contra hn
          exact hc ⟨hplay, hn⟩
        obtain ⟨q, hq, -⟩ := update_song_playing_some t p hplay hr.1 hr.2
        rw [hq] at hu
        cases hu
  | some p1 =>
    have hagree := update_song_agrees word t p p1 hu
    rw [if_neg, hagree]
    intro hc
    exact hc.2 (update_song_some_range t p p1 hc.1 hu)


/-! ## Tone driver: play_tone and stop_tone -/

/-- C9, as stated, fails: play_tone with a non-zero frequency commits the duty 2048,
and twice 2048 is not the 13 bit range 8192 of the timer configured by setup_hardware;
the duty is a quarter of the range, not half of it. -/
theorem play_tone_duty_not_half_scale :
    (play_tone 440 setup_hardware).hw_duty = 2048 ∧
    (play_tone 440 setup_hardware).duty_resolution = 13 ∧
    2 * (play_tone 440 setup_hardware).hw_duty ≠
      2 ^ (play_tone 440 setup_hardware).duty_resolution := by
  decide

/-- C9 (amended): play_tone 0 has exactly the effect of stop_tone, which writes and
commits the duty 0 and leaves the timer frequency unchanged; for every non-zero
frequency play_tone sets the timer frequency to that frequency and writes and commits
the fixed duty 2048, which is one quarter of the 13 bit range 8192 configured by
setup_hardware. -/
theorem play_tone_effect (h : Ledc) :
    play_tone 0 h = stop_tone h ∧
    stop_tone h = { h with duty := 0, hw_duty := 0 } ∧
    (stop_tone h).freq_hz = h.freq_hz ∧
    (∀ freq : Int, freq ≠ 0 →
      play_tone freq h = { h with freq_hz := freq, duty := 2048, hw_duty := 2048 }) ∧
    setup_hardware.duty_resolution = 13 ∧
    (∀ freq : Int, freq ≠ 0 → h.duty_resolution = 13 →
      4 * (play_tone freq h).hw_duty = 2 ^ (play_tone freq h).duty_resolution) := by
  refine ⟨rfl, rfl, rfl, ?_, rfl, ?_⟩
  · intro freq hf
    unfold play_tone
    rw [if_neg hf]
    rfl
  · intro freq hf hr
    unfold play_tone
    rw [if_neg hf]
    show 4 * 2048 = 2 ^ h.duty_resolution
    rw [hr]
    rfl

/-- Instance of play_tone_effect: 440 Hz on the registers left by setup_hardware. -/
theorem play_tone_effect_witness :
    play_tone 440 setup_hardware =
      { duty_resolution := 13, freq_hz := 440, duty := 2048, hw_duty := 2048 } ∧
    4 * (play_tone 440 setup_hardware).hw_duty =
      2 ^ (play_tone 440 setup_hardware).duty_resolution :=
  ⟨(play_tone_effect setup_hardware).2.2.2.1 440 (by decide),
   (play_tone_effect setup_hardware).2.2.2.2.2 440 (by decide) rfl⟩

/-! ## start_song -/

/-- C1, at the failing input: in every state with playing true and note_index equal to
the melody length, update_song reads current_durations at index melody_length, one
past the end of the table, before it compares note_index with melody_length; the read
is out of bounds, so the branch with stop_tone and playing = false is not reached by a
defined execution. -/
theorem update_song_at_end_reads_past_table (t : Nat) (p : Player)
    (h : p.playing = true) (hN : p.note_index = melody_length p) :
    read (current_durations p) p.note_index = none ∧ update_song t p = none :=
  ⟨read_none _ _ (by rw [durations_length, hN]), update_song_finished t p h (le_of_eq hN.symm)⟩

/-- Instance of update_song_at_end_reads_past_table: song 0 with note_index 25. -/
theorem update_song_at_end_reads_past_table_witness :
    read durations1 25 = none ∧
    update_song 100000
      { playing := true, note_index := 25, last_note_time := 0, current_song := 0,
        ledc := setup_hardware, calls := [] } = none :=
  update_song_at_end_reads_past_table 100000
    { playing := true, note_index := 25, last_note_time := 0, current_song := 0,
      ledc := setup_hardware, calls := [] } rfl (by decide)

/-- The part of C1 that the code satisfies: update_song changes nothing when playing
is false; when playing is true and note_index is inside the table, it reads the
duration and the pitch at note_index and, if the unsigned difference of the clock and
last_note_time has reached the duration, issues play_tone of that pitch, sets
last_note_time to the clock and adds one to note_index, and otherwise changes
nothing. -/
theorem update_song_inside_table (t : Nat) (p : Player) :
    (p.playing = false → update_song t p = some p) ∧
    (p.playing = true → 0 ≤ p.note_index → p.note_index < melody_length p →
      ∃ d freq, read (current_durations p) p.note_index = some d ∧
        read (current_melody p) p.note_index = some freq ∧
        (note_elapsed (t % U32) p.last_note_time d = true →
          update_song t p = some { p with
            ledc := play_tone freq p.ledc
            calls := p.calls ++ [Call.play_tone freq]
            note_index := p.note_index + 1
            last_note_time := t % U32 }) ∧
        (note_elapsed (t % U32) p.last_note_time d = false → update_song t p = some p)) := by
  refine ⟨update_song_idle t p, ?_⟩
  intro h h0 hN
  obtain ⟨d, freq, hd, hf, hu⟩ := update_song_playing t p h h0 hN
  refine ⟨d, freq, hd, hf, ?_, ?_⟩
  · intro he
    rw [hu, if_pos he]
  · intro he
    rw [hu, he]
    rfl

/-- C7: the advance test of update_song is an unsigned 32 bit modular subtraction.
For every duration d of the two duration tables, every 32 bit last_note_time and every
elapsed time e below 2^32, the test at the clock (last_note_time + e) mod 2^32 succeeds
if and only if d ≤ e; and in every playing state with note_index inside the table,
update_song at that clock advances the note exactly when the duration at note_index
is at most e, and otherwise leaves the state unchanged. -/
theorem update_song_clock_wrap (last e : Nat) (hl : last < U32) (he : e < U32) :
    (∀ d : Int, d ∈ durations1 ∨ d ∈ durations2 →
      (note_elapsed ((last + e) % U32) last d = true ↔ d ≤ (e : Int))) ∧
    (∀ p : Player, p.playing = true → p.last_note_time = last → 0 ≤ p.note_index →
      p.note_index < melody_length p →
      ∃ d freq, read (current_durations p) p.note_index = some d ∧
        read (current_melody p) p.note_index = some freq ∧
        update_song ((last + e) % U32) p =
          if d ≤ (e : Int) then
            some { p with
              ledc := play_tone freq p.ledc
              calls := p.calls ++ [Call.play_tone freq]
              note_index := p.note_index + 1
              last_note_time := (last + e) % U32 }
          else some p) := by
  have key : ∀ d : Int, d ∈ durations1 ∨ d ∈ durations2 →
      (note_elapsed ((last + e) % U32) last d = true ↔ d ≤ (e : Int)) := by
    intro d hd
    have hr := durations_range d hd
    exact note_elapsed_iff last e d hl he ⟨le_of_lt hr.1, hr.2⟩
  refine ⟨key, ?_⟩
  intro p hp hlast h0 hN
  obtain ⟨d, freq, hd, hf, hu⟩ := update_song_playing ((last + e) % U32) p hp h0 hN
  refine ⟨d, freq, hd, hf, ?_⟩
  have hmem := current_durations_mem p d (read_mem _ _ _ hd)
  have hk := key d hmem
  rw [hu, hlast, Nat.mod_mod]
  by_cases hde : d ≤ (e : Int)
  · rw [if_pos (hk.mpr hde), if_pos hde]
  · rw [if_neg (fun hc => hde (hk.mp hc)), if_neg hde]


/-- Instance of update_song_clock_wrap: last_note_time 296 ms before the rollover and
500 ms elapsed, against the duration 250. -/
theorem update_song_clock_wrap_witness :
    (4294967000 + 500) % U32 = 204 ∧
    (note_elapsed ((4294967000 + 500) % U32) 4294967000 250 = true ↔
      (250 : Int) ≤ ((500 : Nat) : Int)) :=
  ⟨by decide,
   (update_song_clock_wrap 4294967000 500 (by decide) (by decide)).1 250 (Or.inl (by decide))⟩

/-! ## Melody library -/

/-- C8, as stated, fails: the tables of the second song have 253 entries each, not 245,
so MELODY2_LENGTH is not 245. -/
theorem melody2_length_not_245 :
    melody2.length ≠ 245 ∧ durations2.length ≠ 245 ∧ MELODY2_LENGTH ≠ 245 := by
  decide

/-- C8 (amended): melody1 and durations1 have exactly 25 entries each and melody2 and
durations2 have exactly 253 entries each, so MELODY1_LENGTH = 25 and
MELODY2_LENGTH = 253; the second song, updated every 2000 ms, reaches the end of the
melody after 253 calls of update_song; and every play of the second song that reaches
the end of the melody has issued exactly the 253 pitches of melody2 through play_tone,
in table order. -/
theorem melody_table_lengths :
    melody1.length = 25 ∧ durations1.length = 25 ∧
    melody2.length = 253 ∧ durations2.length = 253 ∧
    MELODY1_LENGTH = 25 ∧ MELODY2_LENGTH = 253 ∧
    (∀ (random tick : Nat) (p : Player), random % U32 % 2 = 1 →
      ∃ p1 : Player,
        run_updates (ticks_every 2000 tick 253) (start_song random tick p) = some p1 ∧
        p1.note_index = MELODY2_LENGTH) ∧
    (∀ (random tick : Nat) (p p1 : Player) (ticks : List Nat),
      random % U32 % 2 = 1 →
      run_updates ticks (start_song random tick p) = some p1 →
      p1.note_index = MELODY2_LENGTH →
      p1.calls = p.calls ++ Call.start_song :: melody2.map Call.play_tone ∧
      (melody2.map Call.play_tone).length = 253) := by
  refine ⟨melody1_length, durations1_length, melody2_length, durations2_length,
    melody1_length, melody2_length, ?_, ?_⟩
  · intro random tick p hodd
    have hs : (start_song random tick p).current_song = 1 := by
      show ((random % U32 % 2 : Nat) : Int) = 1
      rw [hodd]
      rfl
    have hlen : melody_length (start_song random tick p) = 253 := by
      unfold melody_length
      rw [hs]
      rfl
    obtain ⟨p1, hrun, hidx, -, -⟩ := advance_every_2000 253 tick (start_song random tick p)
      rfl (le_refl _)
      (by
        rw [hlen]
        show (0 : Int) + ((253 : Nat) : Int) ≤ 253
        decide)
      rfl
    refine ⟨p1, hrun, ?_⟩
    rw [hidx]
    rfl
  · intro random tick p p1 ticks hodd hrun hidx
    obtain ⟨⟨-, -, -, hcalls, -⟩, hsong⟩ :=
      played_run _ ticks _ p1 (played_start random tick p) hrun
    have hs : p1.current_song = 1 := by
      rw [hsong]
      show ((random % U32 % 2 : Nat) : Int) = 1
      rw [hodd]
      rfl
    have hm : current_melody p1 = melody2 := by
      unfold current_melody
      rw [hs]
      rfl
    rw [hm, hidx] at hcalls
    have htake : melody2.take ((MELODY2_LENGTH : Int)).toNat = melody2 := by
      rw [Int.toNat_ofNat]
      exact List.take_length melody2
    rw [htake] at hcalls
    refine ⟨?_, ?_⟩
    · rw [hcalls]
      simp
    · rw [List.length_map]
      exact melody2_length

/-- Instance of melody_table_lengths: from boot, the second song started at clock 0
and updated every 2000 ms reaches note_index 253 having issued the 253 pitches. -/
theorem melody_table_lengths_witness :
    (run_updates (ticks_every 2000 0 253) (start_song 1 0 boot)).map
        (fun p => (p.note_index, p.calls)) =
      some (253, Call.start_song :: melody2.map Call.play_tone) := by
  obtain ⟨p1, hrun, hidx⟩ := melody_table_lengths.2.2.2.2.2.2.1 1 0 boot (by decide)
  obtain ⟨hcalls, -⟩ := melody_table_lengths.2.2.2.2.2.2.2 1 0 boot p1
    (ticks_every 2000 0 253) (by decide) hrun hidx
  rw [hrun]
  simp only [Option.map_some']
  rw [hidx, hcalls]
  rfl

/-! ## Invariants -/

/-- C6: in every player state reachable from boot by calls of start_song, stop_song and
update_song in any order, whatever the memory holds where update_song reads a table
outside its bounds, current_song is 0 or 1 and note_index lies between 0 and the length
of the selected melody, both included; the states reachable by calls of update_song
whose reads are all inside the tables are among them. -/
theorem note_index_bounds :
    (∀ p : Player, PlayerReachableWord p →
      (p.current_song = 0 ∨ p.current_song = 1) ∧
      0 ≤ p.note_index ∧ p.note_index ≤ melody_length p ∧
      melody_length p = ((current_melody p).length : Int)) ∧
    (∀ p : Player, PlayerReachable p → PlayerReachableWord p) ∧
    (∀ p : Player, PlayerReachable p →
      (p.current_song = 0 ∨ p.current_song = 1) ∧
      0 ≤ p.note_index ∧ p.note_index ≤ melody_length p ∧
      melody_length p = ((current_melody p).length : Int)) := by
  have key : ∀ p : Player, PlayerReachableWord p →
      (p.current_song = 0 ∨ p.current_song = 1) ∧
      0 ≤ p.note_index ∧ p.note_index ≤ melody_length p ∧
      melody_length p = ((current_melody p).length : Int) := by
    intro p h
    have hb : (p.current_song = 0 ∨ p.current_song = 1) ∧
        0 ≤ p.note_index ∧ p.note_index ≤ melody_length p := by
      induction h with
      | boot => decide
      | start_song random tick q _ _ =>
        refine ⟨?_, le_refl _, ?_⟩
        · show ((random % U32 % 2 : Nat) : Int) = 0 ∨ ((random % U32 % 2 : Nat) : Int) = 1
          omega
        · show (0 : Int) ≤ _
          unfold melody_length
          split <;> exact Int.ofNat_nonneg _
      | stop_song q _ ih => exact ih
      | update_song word tick q _ ih => exact bounds_update_word word tick q ih
    exact ⟨hb.1, hb.2.1, hb.2.2, (melody_length_eq p).symm⟩
  exact ⟨key, player_reachable_word_of_reachable,
    fun p h => key p (player_reachable_word_of_reachable p h)⟩

/-- Instance of note_index_bounds: song 0 has issued its 25 pitches and update_song is
called once more, 50 ms later. With the word 0 past the end of durations1 the call stops
the song, with the word 261 it changes nothing; note_index stays 25 in both cases. -/
theorem note_index_bounds_witness :
    (update_song_word 0 12550 song0_played).playing = false ∧
    (update_song_word 0 12550 song0_played).note_index = 25 ∧
    (update_song_word 261 12550 song0_played).playing = true ∧
    (update_song_word 261 12550 song0_played).note_index = 25 ∧
    (update_song_word 0 12550 song0_played).note_index ≤
      melody_length (update_song_word 0 12550 song0_played) ∧
    (update_song_word 261 12550 song0_played).note_index ≤
      melody_length (update_song_word 261 12550 song0_played) := by
  have hrun : run_updates (ticks_every 50 0 250) (start_song 0 0 boot) = some song0_played :=
    rfl
  have hreach : PlayerReachableWord song0_played :=
    note_index_bounds.2.1 _ (player_reachable_run _ _ _
      (PlayerReachable.start_song 0 0 boot PlayerReachable.boot) hrun)
  exact ⟨rfl, rfl, rfl, rfl,
    (note_index_bounds.1 _ (PlayerReachableWord.update_song 0 12550 _ hreach)).2.2.1,
    (note_index_bounds.1 _ (PlayerReachableWord.update_song 261 12550 _ hreach)).2.2.1⟩

/-- C5: in every state reachable from the entry of the loop by any sequence of
iterations with arbitrary inputs, whatever the memory holds where update_song reads a
table outside its bounds, playing = false implies that the written and the committed
buzzer duty are 0; the states reachable by iterations whose reads are all inside the
tables are among them; and after stop_song any sequence of update_song calls leaves the
state, and with it the ghost log, unchanged, so no play_tone is issued until start_song
runs. -/
theorem silence_invariant :
    (∀ l : Loop, ReachableWord l → l.player.playing = false →
      l.player.ledc.duty = 0 ∧ l.player.ledc.hw_duty = 0) ∧
    (∀ l : Loop, Reachable l → ReachableWord l) ∧
    (∀ l : Loop, Reachable l → l.player.playing = false →
      l.player.ledc.duty = 0 ∧ l.player.ledc.hw_duty = 0) ∧
    (∀ p : Player, (stop_song p).playing = false ∧ (stop_song p).ledc.duty = 0 ∧
      (stop_song p).ledc.hw_duty = 0) ∧
    (∀ (p : Player) (ticks : List Nat),
      run_updates ticks (stop_song p) = some (stop_song p)) ∧
    (∀ (p : Player) (calls : List (Int × Nat)),
      run_updates_word calls (stop_song p) = stop_song p) := by
  have key : ∀ l : Loop, ReachableWord l → l.player.playing = false →
      l.player.ledc.duty = 0 ∧ l.player.ledc.hw_duty = 0 := by
    intro l hl
    induction hl with
    | init =>
      intro _
      exact ⟨rfl, rfl⟩
    | step word i l0 _ ih =>
      exact silent_update_word word i.tick_update _ (silent_check_button i l0 ih)
  exact ⟨key, reachable_word_of_reachable,
    fun l h => key l (reachable_word_of_reachable l h),
    fun p => ⟨rfl, rfl, rfl⟩,
    fun p ticks => run_updates_idle ticks _ rfl,
    fun p calls => run_updates_word_idle calls _ rfl⟩

/-- Instance of silence_invariant: scenario S2 followed by one more iteration, the word
past the end of durations1 being 0. The last iteration takes the branch of update_song
that ends the song: playing is false, stop_tone has been issued and the duty is 0. -/
theorem silence_invariant_witness :
    (run_loop_word (s2_then_one 0) app_main_init).player.playing = false ∧
    (run_loop_word (s2_then_one 0) app_main_init).player.note_index = 25 ∧
    (run_loop_word (s2_then_one 0) app_main_init).player.calls =
      Call.start_song :: melody1.map Call.play_tone ++ [Call.stop_tone] ∧
    (run_loop_word (s2_then_one 0) app_main_init).player.ledc.duty = 0 ∧
    (run_loop_word (s2_then_one 0) app_main_init).player.ledc.hw_duty = 0 := by
  have hplay : (run_loop_word (s2_then_one 0) app_main_init).player.playing = false := rfl
  have h := silence_invariant.1 _
    (reachable_word_run (s2_then_one 0) _ ReachableWord.init) hplay
  exact ⟨hplay, rfl, rfl, h.1, h.2⟩


/-! ## Main loop: the button -/

theorem note_elapsed_shift (t0 n last : Nat) (d : Int) :
    note_elapsed ((t0 + n) % U32) ((t0 + last) % U32) d = note_elapsed (n % U32) last d := by
  unfold note_elapsed U32
  have h : ((t0 + n) % 4294967296 % 4294967296 + 4294967296 -
      (t0 + last) % 4294967296 % 4294967296) % 4294967296 =
      (n % 4294967296 % 4294967296 + 4294967296 - last % 4294967296) % 4294967296 := by
    omega
  rw [h]

theorem shifted_update (t0 n : Nat) (c q c1 : Player) (hs : Shifted t0 c q)
    (hu : update_song n c = some c1) :
    ∃ q1 : Player, update_song (t0 + n) q = some q1 ∧ Shifted t0 c1 q1 := by
  obtain ⟨hplay, hidx, hsong, hlast⟩ := hs
  cases hc : c.playing with
  | false =>
    rw [update_song_idle n c hc] at hu
    cases hu
    refine ⟨q, update_song_idle _ q (by rw [hplay, hc]), hplay, hidx, hsong, hlast⟩
  | true =>
    obtain ⟨h0, hN⟩ := update_song_some_range n c c1 hc hu
    have hqplay : q.playing = true := by rw [hplay, hc]
    have hdur : current_durations q = current_durations c := by
      unfold current_durations
      rw [hsong]
    have hmel : current_melody q = current_melody c := by
      unfold current_melody
      rw [hsong]
    have hlen : melody_length q = melody_length c := by
      unfold melody_length
      rw [hsong]
    obtain ⟨d, freq, hd, hf, hstep⟩ := update_song_playing n c hc h0 hN
    obtain ⟨d1, freq1, hd1, hf1, hstep1⟩ := update_song_playing (t0 + n) q hqplay
      (by rw [hidx]; exact h0) (by rw [hidx, hlen]; exact hN)
    rw [hdur, hidx, hd] at hd1
    rw [hmel, hidx, hf] at hf1
    cases hd1
    cases hf1
    rw [hlast, note_elapsed_shift] at hstep1
    rw [hstep] at hu
    rw [hstep1]
    by_cases he : note_elapsed (n % U32) c.last_note_time d = true
    · rw [if_pos he] at hu ⊢
      cases hu
      refine ⟨_, rfl, hplay, ?_, hsong, ?_⟩
      · show q.note_index + 1 = c.note_index + 1
        rw [hidx]
      · show (t0 + n) % U32 = (t0 + n % U32) % U32
        unfold U32
        omega
    · rw [if_neg he] at hu ⊢
      cases hu
      exact ⟨_, rfl, hplay, hidx, hsong, hlast⟩

theorem quiet_run (t0 : Nat) (base : List Call) :
    ∀ (rest : List Inputs) (lb : Bool) (n : Nat) (c q : Player) (cs : List Player),
      quiet_inputs 50 lb (t0 + n) rest = true → Shifted t0 c q → Played base q →
      update_states (ticks_every 50 n rest.length) c = some cs →
      ∃ (ls : List Loop) (l1 : Loop),
        loop_states rest { last_button := lb, player := q } = some ls ∧
        ls.map (fun l => l.player.note_index) = cs.map (fun p => p.note_index) ∧
        run_loop rest { last_button := lb, player := q } = some l1 ∧
        ls.getLastD { last_button := lb, player := q } = l1 ∧
        Shifted t0 (cs.getLastD c) l1.player ∧ Played base l1.player := by
  intro rest
  induction rest with
  | nil =>
    intro lb n c q cs _ hs hp hcs
    cases hcs
    exact ⟨[], _, rfl, rfl, rfl, rfl, hs, hp⟩
  | cons i rest ih =>
    intro lb n c q cs hq hs hp hcs
    unfold quiet_inputs at hq
    simp only [Bool.and_eq_true, Bool.not_eq_true', decide_eq_true_eq] at hq
    obtain ⟨⟨hnp, htick⟩, hrest⟩ := hq
    rw [List.length_cons] at hcs
    unfold ticks_every update_states at hcs
    cases hu : update_song (n + 50) c with
    | none =>
      rw [hu] at hcs
      cases hcs
    | some c2 =>
      rw [hu] at hcs
      dsimp only at hcs
      cases hcs2 : update_states (ticks_every 50 (n + 50) rest.length) c2 with
      | none =>
        rw [hcs2] at hcs
        cases hcs
      | some cs2 =>
        rw [hcs2] at hcs
        cases hcs
        obtain ⟨q2, hq2, hs2⟩ := shifted_update t0 (n + 50) c q c2 hs hu
        obtain ⟨hp2, -⟩ := played_update base _ q q2 hp hq2
        have hnopress : ¬(({ last_button := lb, player := q } : Loop).last_button = true ∧
            i.button = false) := by
          intro hc
          rw [show ({ last_button := lb, player := q } : Loop).last_button = lb from rfl] at hc
          rw [hc.1, hc.2] at hnp
          cases hnp
        have hplayer := (check_button_player i { last_button := lb, player := q }).2.2 hnopress
        have hupd : update_song i.tick_update
            (check_button i { last_button := lb, player := q }).player = some q2 := by
          rw [hplayer, htick, Nat.add_assoc]
          exact hq2
        have hiter := loop_iteration_some i _ q2 hupd
        rw [Nat.add_assoc] at hrest
        obtain ⟨ls, l1, hls, hmap, hrun, hlast, hsh, hpl⟩ :=
          ih i.button (n + 50) c2 q2 cs2 hrest hs2 hp2 hcs2
        refine ⟨{ last_button := i.button, player := q2 } :: ls, l1, ?_, ?_, ?_, ?_, ?_, hpl⟩
        · unfold loop_states
          rw [hiter]
          dsimp only
          rw [hls]
        · rw [List.map_cons, List.map_cons, hmap]
          show q2.note_index :: _ = c2.note_index :: _
          rw [hs2.2.1]
        · unfold run_loop
          rw [hiter]
          exact hrun
        · rw [List.getLastD_cons]
          exact hlast
        · rw [List.getLastD_cons]
          exact hsh


/-! ## Scenario S2: the short song -/

theorem reference_start : update_song 0 (start_song 0 0 boot) = some (start_song 0 0 boot) := rfl

theorem reference_schedule :
    (update_states (ticks_every 50 0 250) (start_song 0 0 boot)).map
        (List.map (fun p => p.note_index)) =
      some ((List.range 250).map (fun k => (notes_issued durations1 (50 * (k + 1)) : Int))) :=
  rfl

theorem reference_final :
    (update_states (ticks_every 50 0 250) (start_song 0 0 boot)).map
        (fun cs => ((cs.getLastD (start_song 0 0 boot)).playing,
          (cs.getLastD (start_song 0 0 boot)).note_index,
          (cs.getLastD (start_song 0 0 boot)).current_song,
          (cs.getLastD (start_song 0 0 boot)).last_note_time)) =
      some (true, 25, 0, 12500) :=
  rfl

theorem schedule_range :
    (List.range 251).map (fun k => (notes_issued durations1 (50 * k) : Int)) =
      0 :: (List.range 250).map (fun k => (notes_issued durations1 (50 * (k + 1)) : Int)) := by
  rw [List.range_succ_eq_map, List.map_cons, List.map_map]
  rfl

/-- C3, at the failing input: in scenario S2 the run from the press at clock 1000 to
clock 1000 + 12500 ends with playing = true, note_index = 25, no stop_tone issued and
the buzzer at duty 2048; no pitch has been issued 200 ms after the press; and 450 ms
after the second pitch, whose table duration is 250, was issued at clock 1500, the third
is not issued yet. The next iteration reads durations1 at index 25, outside the table:
whether it ends the song depends on the word found there, with 0 it does and with 261
it does not. -/
theorem short_song_not_finished :
    (run_loop s2_inputs app_main_init).map
        (fun l => (l.player.playing, l.player.note_index,
          decide (Call.stop_tone ∈ l.player.calls), l.player.ledc.hw_duty)) =
      some (true, 25, false, 2048) ∧
    (run_loop (s2_inputs.take 5) app_main_init).map (fun l => l.player.calls) =
      some [Call.start_song] ∧
    (run_loop (s2_inputs.take 20) app_main_init).map
        (fun l => (l.player.calls, l.player.last_note_time)) =
      some ([Call.start_song, Call.play_tone 264, Call.play_tone 264], 1500) ∧
    run_loop (s2_inputs ++ released_inputs 13500 1) app_main_init = none ∧
    (run_loop_word (s2_then_one 0) app_main_init).player.playing = false ∧
    (run_loop_word (s2_then_one 261) app_main_init).player.playing = true :=
  ⟨rfl, rfl, rfl, rfl, rfl, rfl⟩

/-- The schedule that update_song gives the short song, for every start clock: when a
press at clock t0 starts song 0 and 250 further iterations follow 50 ms apart without
a press, the last one at clock t0 + 12500 where 12500 is the sum of durations1, the
player issues through play_tone exactly the 25 pitches of melody1 in table order, each
once; after the iteration at clock t0 + 50 k the number of pitches issued is the number
of entries j with d_0 + ... + d_j ≤ 50 k, so that pitch j is issued at clock
t0 + d_0 + ... + d_j and not at t0 + d_0 + ... + d_(j-1); the last iteration issues the
last pitch, and the run ends with note_index = 25, playing still true and no stop_tone
issued. -/
theorem short_song_schedule (random t0 : Nat) (l0 : Loop) (rest : List Inputs)
    (hb : l0.last_button = true) (hidle : l0.player.playing = false)
    (hsong : random % U32 % 2 = 0)
    (hlen : rest.length = 250) (hquiet : quiet_inputs 50 false t0 rest = true) :
    ∃ (ls : List Loop) (l1 : Loop),
      loop_states (press_input random t0 :: rest) l0 = some ls ∧
      run_loop (press_input random t0 :: rest) l0 = some l1 ∧
      ls.getLast? = some l1 ∧
      ls.map (fun l => l.player.note_index) =
        (List.range 251).map (fun k => (notes_issued durations1 (50 * k) : Int)) ∧
      l1.player.calls = l0.player.calls ++ Call.start_song :: melody1.map Call.play_tone ∧
      Call.stop_tone ∉ Call.start_song :: melody1.map Call.play_tone ∧
      l1.player.current_song = 0 ∧
      l1.player.note_index = MELODY1_LENGTH ∧
      l1.player.playing = true ∧
      l1.player.last_note_time = (t0 + 12500) % U32 ∧
      l1.player.ledc.freq_hz = 352 ∧ l1.player.ledc.hw_duty = 2048 ∧
      durations1.sum = 12500 := by
  have hshift0 : Shifted t0 (start_song 0 0 boot) (start_song random t0 l0.player) := by
    refine ⟨rfl, rfl, ?_, rfl⟩
    show ((random % U32 % 2 : Nat) : Int) = ((0 % U32 % 2 : Nat) : Int)
    rw [hsong]
    rfl
  obtain ⟨q1, hq1, hs1⟩ := shifted_update t0 0 _ _ _ hshift0 reference_start
  obtain ⟨hp1, -⟩ := played_update _ _ _ q1 (played_start random t0 l0.player) hq1
  have hplayer := (check_button_player (press_input random t0) l0).2.1 hb rfl hidle
  have hupd : update_song (press_input random t0).tick_update
      (check_button (press_input random t0) l0).player = some q1 := by
    rw [hplayer]
    exact hq1
  have hiter : loop_iteration (press_input random t0) l0 =
      some { last_button := false, player := q1 } :=
    loop_iteration_some (press_input random t0) l0 q1 hupd
  cases hcs : update_states (ticks_every 50 0 250) (start_song 0 0 boot) with
  | none =>
    have h := reference_final
    rw [hcs] at h
    cases h
  | some cs =>
    have hsched := reference_schedule
    have hfinal := reference_final
    rw [hcs] at hsched hfinal
    simp only [Option.map_some', Option.some.injEq, Prod.mk.injEq] at hsched hfinal
    obtain ⟨hf1, hf2, hf3, hf4⟩ := hfinal
    obtain ⟨ls, l1, hls, hmap, hrun, hlast, hsh, hpl⟩ :=
      quiet_run t0 (l0.player.calls ++ [Call.start_song]) rest false 0
        (start_song 0 0 boot) q1 cs hquiet hs1 hp1 (by rw [hlen]; exact hcs)
    obtain ⟨hsh1, hsh2, hsh3, hsh4⟩ := hsh
    obtain ⟨-, -, -, hcalls, hledc⟩ := hpl
    rw [hf1] at hsh1
    rw [hf2] at hsh2
    rw [hf3] at hsh3
    rw [hf4] at hsh4
    have hmel : current_melody l1.player = melody1 := by
      unfold current_melody
      rw [if_pos hsh3]
    rw [hmel, hsh2] at hcalls hledc
    obtain ⟨freq, h, hread, hreg⟩ := hledc (by decide)
    have hfreq : freq = 352 := by
      have h24 : read melody1 (25 - 1) = some 352 := rfl
      rw [h24] at hread
      cases hread
      rfl
    rw [hfreq] at hreg
    refine ⟨{ last_button := false, player := q1 } :: ls, l1,
      ?_, ?_, ?_, ?_, ?_, by decide, hsh3, hsh2, hsh1, hsh4, ?_, ?_, by decide⟩
    · unfold loop_states
      rw [hiter]
      dsimp only
      rw [hls]
    · unfold run_loop
      rw [hiter]
      exact hrun
    · rw [List.getLast?_cons, ← List.getLastD_eq_getLast?, hlast]
    · rw [List.map_cons, hmap, hsched, schedule_range]
      show q1.note_index :: _ = _
      rw [hs1.2.1]
      rfl
    · rw [hcalls]
      have htake : List.take (25 : Int).toNat melody1 = melody1 := rfl
      rw [htake]
      simp
    · rw [hreg]
      rfl
    · rw [hreg]
      rfl

/-- Scenario S2 as an instance of the schedule: the press at clock 1000 on the entry
state of the loop with the button released afterwards. -/
theorem short_song_schedule_witness :
    (run_loop s2_inputs app_main_init).map
        (fun l => (l.player.playing, l.player.note_index, l.player.last_note_time)) =
      some (true, 25, 13500) := by
  obtain ⟨ls, l1, -, hrun, -, -, -, -, -, hidx, hplay, hlast, -⟩ :=
    short_song_schedule 0 1000 app_main_init (released_inputs 1000 250) rfl rfl
      (by decide) (by decide) (by decide)
  have hin : s2_inputs = press_input 0 1000 :: released_inputs 1000 250 := rfl
  rw [hin, hrun]
  simp only [Option.map_some']
  rw [hidx, hplay, hlast]
  rfl


/-! ## Table reads of update_song -/

/-- C10, at the failing input: start_song for song 0 at clock 0 followed by update_song
every 50 ms up to clock 12500 reaches a state with playing = true and note_index = 25,
the length of durations1; the next call of update_song, whatever its clock, reads
current_durations at index 25, which is not below the length, and the read is out of
bounds. -/
theorem update_song_reads_duration_at_length :
    ∃ p : Player,
      run_updates (ticks_every 50 0 250) (start_song 0 0 boot) = some p ∧
      PlayerReachable p ∧
      duration_read_index p = some 25 ∧
      (current_durations p).length = 25 ∧
      melody_length p = 25 ∧
      read (current_durations p) 25 = none ∧
      (∀ t : Nat, update_song t p = none) ∧
      run_updates (ticks_every 50 0 251) (start_song 0 0 boot) = none := by
  have hrun : run_updates (ticks_every 50 0 250) (start_song 0 0 boot) =
      some { playing := true, note_index := 25, last_note_time := 12500, current_song := 0,
             ledc := play_tone 352 setup_hardware,
             calls := Call.start_song :: melody1.map Call.play_tone } := rfl
  have hnone : run_updates (ticks_every 50 0 251) (start_song 0 0 boot) = none := rfl
  have hreach := player_reachable_run _ _ _
    (PlayerReachable.start_song 0 0 boot PlayerReachable.boot) hrun
  exact ⟨{ playing := true, note_index := 25, last_note_time := 12500, current_song := 0,
           ledc := play_tone 352 setup_hardware,
           calls := Call.start_song :: melody1.map Call.play_tone },
    hrun, hreach, rfl, rfl, rfl, rfl,
    fun t => update_song_finished t _ rfl (le_refl _), hnone⟩


end MusicPlayer
